import Mathlib

/-!
Shallow embedding of the newBolt content-management backend:
the Express route handlers for `/content` and `/media`
(`src/unnamed/part_000`, `src/server/routes/media.ts`), the auth
middleware (`src/server/middleware/auth.ts`), and the front-end
utilities (`src/src/utils/contentManager.ts`).

Storage is the MySQL schema of the migration script: tables `content`,
`content_tags` (unique `(content_id, tag)`, FK cascade on content delete)
and `media`.  A database is a record of row lists plus auto-increment
counters.  Each SQL statement is a function from the database to an
`Except`-value; an explicit `fault` flag on a statement models a
connection/storage fault, so transactional rollback can be stated for
an arbitrary failing statement.  Timestamps are abstract `Nat`s supplied
as a `now` parameter (`DEFAULT CURRENT_TIMESTAMP` / `ON UPDATE
CURRENT_TIMESTAMP`).
-/

namespace NewBolt

/-- A row of the `content` table (migration script). -/
structure ContentRow where
  id : Nat
  type : String
  title : String
  content : String
  slug : String
  author : String
  featured : Bool
  image : Option String
  category : Option String
  position : Option String
  company : Option String
  createdAt : Nat
  updatedAt : Nat
deriving DecidableEq, Repr

/-- A row of the `media` table (migration script). -/
structure MediaRow where
  id : Nat
  type : String
  title : String
  url : String
  thumbnailUrl : Option String
  fileSize : Option Nat
  dimensions : Option String
  uploadedBy : String
  createdAt : Nat
deriving DecidableEq, Repr

/-- The persistent store: `content`, `content_tags` and `media` tables plus
the auto-increment counters. -/
structure DB where
  contentRows : List ContentRow
  contentTags : List (Nat × String)
  mediaRows : List MediaRow
  nextContentId : Nat
  nextMediaId : Nat
deriving DecidableEq, Repr

/-- The request body destructured by the content POST/PUT handlers:
`{ type, title, content, slug, author, featured, image, category, tags,
position, company }`.  `featured` is optional (`featured || false` in the
handlers); a missing/null `tags` behaves as the empty list (the handlers
guard on `tags && tags.length > 0`). -/
structure ContentReq where
  type : String
  title : String
  content : String
  slug : String
  author : String
  featured : Option Bool
  image : Option String
  category : Option String
  position : Option String
  company : Option String
  tags : List String
deriving DecidableEq, Repr

/-- The request body destructured by the media POST handler. -/
structure MediaReq where
  type : String
  title : String
  url : String
  thumbnailUrl : Option String
  fileSize : Option Nat
  dimensions : Option String
  uploadedBy : String
deriving DecidableEq, Repr

/-- Errors a statement (or the post-commit row access) can raise:
`dupSlug` = UNIQUE violation on `content.slug`; `dupTag` = UNIQUE violation
on `(content_id, tag)`; `fkViolation` = FK violation on
`content_tags.content_id`; `injected` = a connection/storage fault;
`undefinedAccess` = the JS `TypeError` raised by `rows[0].tags = ...` when
the read-back returned no row. -/
inductive StoreError where
  | dupSlug
  | dupTag
  | fkViolation
  | injected
  | undefinedAccess
deriving DecidableEq, Repr

/-- A content record as returned by the handlers: the row joined with its
tag list. -/
structure ContentBody where
  row : ContentRow
  tags : List String
deriving DecidableEq, Repr

/-- HTTP responses the modelled routes produce. -/
inductive Resp where
  | created (body : ContentBody)
  | okBody (body : ContentBody)
  | createdMedia (m : MediaRow)
  | okMsg (message : String)
  | notFound (message : String)
  | unauthorized (message : String)
  | forbidden (message : String)
  | serverError
deriving DecidableEq, Repr

/-- HTTP status code of a response. -/
def Resp.status : Resp → Nat
  | .created _ => 201
  | .okBody _ => 200
  | .createdMedia _ => 201
  | .okMsg _ => 200
  | .notFound _ => 404
  | .unauthorized _ => 401
  | .forbidden _ => 403
  | .serverError => 500

/-- `SELECT * FROM content WHERE id = ?` (first row, if any). -/
def findContent (db : DB) (id : Nat) : Option ContentRow :=
  db.contentRows.find? (fun r => r.id == id)

/-- `SELECT tag FROM content_tags WHERE content_id = ?`. -/
def findTags (db : DB) (id : Nat) : List String :=
  (db.contentTags.filter (fun p => p.1 == id)).map (fun p => p.2)

/-- `SELECT * FROM media WHERE id = ?` (first row, if any). -/
def findMedia (db : DB) (id : Nat) : Option MediaRow :=
  db.mediaRows.find? (fun r => r.id == id)

/-- Run one SQL statement; `fault` injects a connection/storage fault in
place of executing it. -/
def runStmt {α : Type} (fault : Bool) (stmt : DB → Except StoreError (α × DB))
    (db : DB) : Except StoreError (α × DB) :=
  if fault then .error .injected else stmt db

/-- The row written by `INSERT INTO content (type, title, content, slug,
author, featured, image, category, position, company) VALUES (?,...,?)`
with `featured || false`; `created_at`/`updated_at` take the current
timestamp by column default. -/
def newContentRow (req : ContentReq) (now : Nat) (cid : Nat) : ContentRow :=
  { id := cid, type := req.type, title := req.title,
    content := req.content, slug := req.slug, author := req.author,
    featured := req.featured.getD false, image := req.image,
    category := req.category, position := req.position,
    company := req.company, createdAt := now, updatedAt := now }

/-- The store after the content INSERT: the new row appended, the
auto-increment counter advanced. -/
def dbAfterInsert (db : DB) (req : ContentReq) (now : Nat) : DB :=
  { db with
    contentRows := db.contentRows ++ [newContentRow req now db.nextContentId],
    nextContentId := db.nextContentId + 1 }

/-- The INSERT statement of the content POST handler (see `newContentRow`):
fails on a duplicate slug, otherwise appends the row under the
auto-generated id. -/
def insertContentStmt (req : ContentReq) (now : Nat) (db : DB) :
    Except StoreError (Nat × DB) :=
  if db.contentRows.any (fun r => r.slug == req.slug) then .error .dupSlug
  else .ok (db.nextContentId, dbAfterInsert db req now)

/-- Does the tag list repeat an entry (would violate the UNIQUE
`(content_id, tag)` key within one bulk INSERT)? -/
def hasDupTags : List String → Bool
  | [] => false
  | t :: ts => ts.contains t || hasDupTags ts

/-- The store after the bulk tag INSERT: the `(content_id, tag)` pairs
appended. -/
def dbAfterTags (db : DB) (cid : Nat) (tags : List String) : DB :=
  { db with contentTags := db.contentTags ++ tags.map (fun t => (cid, t)) }

/-- `INSERT INTO content_tags (content_id, tag) VALUES ?` (bulk); fails on
an FK violation (no such content id) or a duplicate `(content_id, tag)`
pair; a single multi-row statement, so all rows insert or none do. -/
def insertTagsStmt (cid : Nat) (tags : List String) (db : DB) :
    Except StoreError (Unit × DB) :=
  if !db.contentRows.any (fun r => r.id == cid) then .error .fkViolation
  else if tags.all (fun t => !db.contentTags.contains (cid, t)) && !hasDupTags tags then
    .ok ((), dbAfterTags db cid tags)
  else .error .dupTag

/-- `UPDATE content SET type = ?, ..., company = ? WHERE id = ?` with
`featured || false`; affects zero rows (no error) when the id is absent;
fails when the write would duplicate another row's slug; `updated_at`
advances via `ON UPDATE CURRENT_TIMESTAMP`. -/
def applyContentReq (r : ContentRow) (req : ContentReq) (now : Nat) : ContentRow :=
  { r with type := req.type, title := req.title, content := req.content,
           slug := req.slug, author := req.author,
           featured := req.featured.getD false, image := req.image,
           category := req.category, position := req.position,
           company := req.company, updatedAt := now }

/-- The store after the content UPDATE: the targeted row replaced in
place (see `applyContentReq`), every other row untouched. -/
def dbAfterUpdate (db : DB) (id : Nat) (req : ContentReq) (now : Nat) : DB :=
  { db with contentRows :=
      db.contentRows.map (fun r => if r.id == id then applyContentReq r req now else r) }

/-- The UPDATE statement of the content PUT handler (see `applyContentReq`). -/
def updateContentStmt (id : Nat) (req : ContentReq) (now : Nat) (db : DB) :
    Except StoreError (Unit × DB) :=
  match db.contentRows.find? (fun r => r.id == id) with
  | none => .ok ((), db)
  | some _ =>
    if db.contentRows.any (fun r => r.id != id && r.slug == req.slug) then
      .error .dupSlug
    else .ok ((), dbAfterUpdate db id req now)

/-- `DELETE FROM content_tags WHERE content_id = ?`. -/
def deleteTagsStmt (id : Nat) (db : DB) : DB :=
  { db with contentTags := db.contentTags.filter (fun p => p.1 != id) }

/-- `DELETE FROM content WHERE id = ?`: returns the affected-row count;
tag rows cascade with the deleted content row (FK `ON DELETE CASCADE`). -/
def deleteContentStmt (id : Nat) (db : DB) : Nat × DB :=
  let n := (db.contentRows.filter (fun r => r.id == id)).length
  if n == 0 then (0, db)
  else (n, { db with contentRows := db.contentRows.filter (fun r => r.id != id),
                     contentTags := db.contentTags.filter (fun p => p.1 != id) })

/-- `DELETE FROM media WHERE id = ?`: returns the affected-row count. -/
def deleteMediaStmt (id : Nat) (db : DB) : Nat × DB :=
  let n := (db.mediaRows.filter (fun r => r.id == id)).length
  if n == 0 then (0, db)
  else (n, { db with mediaRows := db.mediaRows.filter (fun r => r.id != id) })

/-- The content POST handler's body, `router.post('/')`: begin transaction
(snapshot the store), INSERT the content row, bulk-INSERT the tag pairs if
the tag list is non-empty, commit, then read the created row and its tags
back on the same connection.  On any statement failure before commit the
transaction is rolled back (the snapshot is restored) and the error
re-thrown.  `fIns`/`fTags` inject faults into the two transaction
statements. -/
def createContentCore (db : DB) (req : ContentReq) (now : Nat)
    (fIns fTags : Bool) : Except StoreError ContentBody × DB :=
  match runStmt fIns (insertContentStmt req now) db with
  | .error e => (.error e, db)
  | .ok (cid, db1) =>
    match (if req.tags.isEmpty then .ok ((), db1)
           else runStmt fTags (insertTagsStmt cid req.tags) db1 :
           Except StoreError (Unit × DB)) with
    | .error e => (.error e, db)
    | .ok (_, db2) =>
      match findContent db2 cid with
      | none => (.error .undefinedAccess, db2)
      | some row => (.ok ⟨row, findTags db2 cid⟩, db2)

/-- The content POST route handler: 201 with the read-back record on
success, 500 `Server error` on any thrown error. -/
def createContentHandler (db : DB) (req : ContentReq) (now : Nat)
    (fIns fTags : Bool) : Resp × DB :=
  match createContentCore db req now fIns fTags with
  | (.error _, db2) => (.serverError, db2)
  | (.ok body, db2) => (.created body, db2)

/-- The content PUT handler's body, `router.put('/:id')`: begin transaction,
UPDATE the content row, DELETE the id's tag rows, bulk-INSERT the supplied
tags if non-empty, commit, then read the row and tags back.  The read-back
assigns `updatedContent[0].tags`, a JS `TypeError` (`undefinedAccess`) when
no row came back; that error is thrown after commit, so the committed state
is kept.  `fUpd`/`fDel`/`fIns` inject faults into the three transaction
statements. -/
def updateContentCore (db : DB) (id : Nat) (req : ContentReq) (now : Nat)
    (fUpd fDel fIns : Bool) : Except StoreError ContentBody × DB :=
  match runStmt fUpd (updateContentStmt id req now) db with
  | .error e => (.error e, db)
  | .ok (_, db1) =>
    match runStmt fDel (fun d => .ok ((), deleteTagsStmt id d)) db1 with
    | .error e => (.error e, db)
    | .ok (_, db2) =>
      match (if req.tags.isEmpty then .ok ((), db2)
             else runStmt fIns (insertTagsStmt id req.tags) db2 :
             Except StoreError (Unit × DB)) with
      | .error e => (.error e, db)
      | .ok (_, db3) =>
        match findContent db3 id with
        | none => (.error .undefinedAccess, db3)
        | some row => (.ok ⟨row, findTags db3 id⟩, db3)

/-- The content PUT route handler: 200 with the read-back record on
success, 500 `Server error` on any thrown error (there is no 404 path). -/
def updateContentHandler (db : DB) (id : Nat) (req : ContentReq) (now : Nat)
    (fUpd fDel fIns : Bool) : Resp × DB :=
  match updateContentCore db id req now fUpd fDel fIns with
  | (.error _, db2) => (.serverError, db2)
  | (.ok body, db2) => (.okBody body, db2)

/-- The content DELETE route handler, `router.delete('/:id')`: a single
DELETE; zero affected rows maps to 404 `Content not found`. -/
def deleteContentHandler (db : DB) (id : Nat) : Resp × DB :=
  let r := deleteContentStmt id db
  if r.1 == 0 then (.notFound "Content not found", r.2)
  else (.okMsg "Content deleted", r.2)

/-- The media POST route handler: single INSERT, read the new row back by
its generated id, 201. -/
def createMediaHandler (db : DB) (req : MediaReq) (now : Nat) : Resp × DB :=
  let mid := db.nextMediaId
  let row : MediaRow :=
    { id := mid, type := req.type, title := req.title, url := req.url,
      thumbnailUrl := req.thumbnailUrl, fileSize := req.fileSize,
      dimensions := req.dimensions, uploadedBy := req.uploadedBy,
      createdAt := now }
  let db2 : DB := { db with mediaRows := db.mediaRows ++ [row],
                            nextMediaId := mid + 1 }
  match findMedia db2 mid with
  | none => (.serverError, db2)
  | some m => (.createdMedia m, db2)

/-- The media DELETE route handler: a single DELETE; zero affected rows
maps to 404 `Media not found`. -/
def deleteMediaHandler (db : DB) (id : Nat) : Resp × DB :=
  let r := deleteMediaStmt id db
  if r.1 == 0 then (.notFound "Media not found", r.2)
  else (.okMsg "Media deleted", r.2)

/-- `ORDER BY updated_at DESC` as a relation on content rows. -/
def updatedDesc (a b : ContentRow) : Prop := b.updatedAt ≤ a.updatedAt

instance : DecidableRel updatedDesc := fun a b => Nat.decLe b.updatedAt a.updatedAt

instance : IsTotal ContentRow updatedDesc :=
  ⟨fun a b => (Nat.le_total b.updatedAt a.updatedAt).imp id id⟩

instance : IsTrans ContentRow updatedDesc :=
  ⟨fun _ _ _ h1 h2 => Nat.le_trans h2 h1⟩

/-- The content GET-list handler, `router.get('/')`: optional `?type=`
filter (`if (type)` — an empty query string is falsy and filters nothing),
`ORDER BY updated_at DESC`, then a tag lookup per returned row.  The sort
is modelled by insertion sort: MySQL guarantees no order among rows with
equal `updated_at`. -/
def listContent (db : DB) (typeFilter : Option String) : List ContentBody :=
  let rows :=
    match typeFilter with
    | none => db.contentRows
    | some t => if t == "" then db.contentRows
                else db.contentRows.filter (fun r => r.type == t)
  (List.insertionSort updatedDesc rows).map (fun r => ⟨r, findTags db r.id⟩)

/-- The identity claim embedded in a verified token (`{ id, role }`). -/
structure UserClaims where
  id : Nat
  role : String
deriving DecidableEq, Repr

/-- `authenticate` middleware: reads the `x-auth-token` header; absent →
401 `No token, authorization denied`; `jwt.verify` failure (modelled by
the abstract verifier returning `none`) → 401 `Token is not valid`; on
success the decoded claims are attached to the request. -/
def authenticate (verify : String → Option UserClaims)
    (token : Option String) : Except Resp UserClaims :=
  match token with
  | none => .error (.unauthorized "No token, authorization denied")
  | some t =>
    match verify t with
    | none => .error (.unauthorized "Token is not valid")
    | some u => .ok u

/-- `isAdmin` middleware: 401 `Not authenticated` when no user was
attached; 403 when the attached role is not `admin`. -/
def isAdmin (user : Option UserClaims) : Except Resp Unit :=
  match user with
  | none => .error (.unauthorized "Not authenticated")
  | some u =>
    if u.role == "admin" then .ok ()
    else .error (.forbidden "Access denied. Admin role required.")

/-- The middleware chain `authenticate, isAdmin, handler` used by every
mutating content/media route: `authenticate` runs first and short-circuits,
then `isAdmin` on the user it attached, then the store handler. -/
def protectedRoute (verify : String → Option UserClaims)
    (token : Option String) (handler : UserClaims → DB → Resp × DB)
    (db : DB) : Resp × DB :=
  match authenticate verify token with
  | .error r => (r, db)
  | .ok u =>
    match isAdmin (some u) with
    | .error r => (r, db)
    | .ok _ => handler u db

/-- `POST /api/content` with its middleware chain. -/
def postContentRoute (verify : String → Option UserClaims)
    (token : Option String) (req : ContentReq) (now : Nat)
    (fIns fTags : Bool) (db : DB) : Resp × DB :=
  protectedRoute verify token (fun _ d => createContentHandler d req now fIns fTags) db

/-- `PUT /api/content/:id` with its middleware chain. -/
def putContentRoute (verify : String → Option UserClaims)
    (token : Option String) (id : Nat) (req : ContentReq) (now : Nat)
    (fUpd fDel fIns : Bool) (db : DB) : Resp × DB :=
  protectedRoute verify token (fun _ d => updateContentHandler d id req now fUpd fDel fIns) db

/-- `DELETE /api/content/:id` with its middleware chain. -/
def deleteContentRoute (verify : String → Option UserClaims)
    (token : Option String) (id : Nat) (db : DB) : Resp × DB :=
  protectedRoute verify token (fun _ d => deleteContentHandler d id) db

/-- `POST /api/media` with its middleware chain. -/
def postMediaRoute (verify : String → Option UserClaims)
    (token : Option String) (req : MediaReq) (now : Nat) (db : DB) : Resp × DB :=
  protectedRoute verify token (fun _ d => createMediaHandler d req now) db

/-- `DELETE /api/media/:id` with its middleware chain. -/
def deleteMediaRoute (verify : String → Option UserClaims)
    (token : Option String) (id : Nat) (db : DB) : Resp × DB :=
  protectedRoute verify token (fun _ d => deleteMediaHandler d id) db

/-- The hardcoded fallback signing key compiled into
`src/server/middleware/auth.ts`. -/
def defaultJwtSecret : String :=
  "d5692e8f3e1bd1fe110cd2766a3a074f41898372a1e5458a4fabf6d62683844c"

/-- `JWT_SECRET = process.env.JWT_SECRET || "d5692e8f…"`: the signing key
read once at startup; a missing (or empty) environment variable silently
falls back to the compiled-in default. -/
def jwtSecret (env : Option String) : String :=
  match env with
  | some s => if s == "" then defaultJwtSecret else s
  | none => defaultJwtSecret

/-- A verifier whose tokens always decode to an editor-role claim. -/
def editorVerify : String → Option UserClaims :=
  fun _ => some { id := 7, role := "editor" }

/-- The empty store with both auto-increment counters at 1. -/
def emptyDB : DB :=
  { contentRows := [], contentTags := [], mediaRows := [],
    nextContentId := 1, nextMediaId := 1 }

/-- A sample content request body. -/
def sampleReq : ContentReq :=
  { type := "blog", title := "X", content := "Y", slug := "x",
    author := "A", featured := none, image := none, category := none,
    position := none, company := none, tags := ["ai", "edu"] }

/-- A sample media request body. -/
def sampleMediaReq : MediaReq :=
  { type := "image", title := "pic", url := "http://e/p.png",
    thumbnailUrl := none, fileSize := some 10, dimensions := none,
    uploadedBy := "admin" }

/-- The read-back body produced by a successful sample create on the
empty store. -/
def createdSampleBody : ContentBody :=
  ⟨newContentRow sampleReq 0 1, ["ai", "edu"]⟩

/-- A stored row used by the update examples. -/
def updSampleRow : ContentRow :=
  { id := 1, type := "page", title := "Home", content := "welcome",
    slug := "home", author := "Admin", featured := false, image := none,
    category := none, position := none, company := none,
    createdAt := 0, updatedAt := 0 }

/-- A store holding one content row that carries one tag. -/
def updSampleDB : DB :=
  { contentRows := [updSampleRow], contentTags := [(1, "x")],
    mediaRows := [], nextContentId := 2, nextMediaId := 1 }

/-- An update request submitting zero tags. -/
def updSampleReq : ContentReq :=
  { type := "page", title := "Home2", content := "hi", slug := "home",
    author := "Admin", featured := none, image := none, category := none,
    position := none, company := none, tags := [] }

/-- The read-back body of the sample update. -/
def updSampleBody : ContentBody :=
  ⟨applyContentReq updSampleRow updSampleReq 5, []⟩

/-- The committed store after the sample update. -/
def updSampleDB2 : DB :=
  deleteTagsStmt 1 (dbAfterUpdate updSampleDB 1 updSampleReq 5)

/-- A stored page row used by the list examples. -/
def c8Row : ContentRow :=
  { id := 1, type := "page", title := "Home", content := "welcome",
    slug := "home", author := "Admin", featured := false, image := none,
    category := none, position := none, company := none,
    createdAt := 0, updatedAt := 3 }

/-- A store holding one page row and nothing else. -/
def c8DB : DB :=
  { contentRows := [c8Row], contentTags := [], mediaRows := [],
    nextContentId := 2, nextMediaId := 1 }

/-- The JS regex class `\w` = `[A-Za-z0-9_]` (ASCII word character). -/
def isWordChar (c : Char) : Bool :=
  (97 ≤ c.toNat && c.toNat ≤ 122) || (65 ≤ c.toNat && c.toNat ≤ 90) ||
  (48 ≤ c.toNat && c.toNat ≤ 57) || c.toNat == 95

/-- The JS regex class `\s` (and the character set `String.prototype.trim`
removes): ASCII whitespace, NBSP, the Unicode space separators, line and
paragraph separators, and the BOM. -/
def isJsSpace (c : Char) : Bool :=
  (9 ≤ c.toNat && c.toNat ≤ 13) || c.toNat == 32 || c.toNat == 160 ||
  c.toNat == 5760 || (8192 ≤ c.toNat && c.toNat ≤ 8202) ||
  c.toNat == 8232 || c.toNat == 8233 || c.toNat == 8239 ||
  c.toNat == 8287 || c.toNat == 12288 || c.toNat == 65279

/-- Per-code-point model of `String.prototype.toLowerCase` on the
characters `generateSlug` can keep: uppercase ASCII maps down by 32,
everything else is left alone (non-ASCII letters are deleted by the
`[^\w\s-]` filter regardless of case). -/
def jsToLower (c : Char) : Char :=
  if 65 ≤ c.toNat ∧ c.toNat ≤ 90 then Char.ofNat (c.toNat + 32) else c

/-- The characters `.replace(/[^\w\s-]/g, '')` keeps. -/
def keepChar (c : Char) : Bool := isWordChar c || isJsSpace c || c == '-'

/-- `.replace(/X+/g, r)`: each maximal run of characters satisfying `p`
collapses to the single character `r`; the flag records whether the
previous character was part of a run. -/
def collapseRuns (p : Char → Bool) (r : Char) : List Char → Bool → List Char
  | [], _ => []
  | c :: cs, inRun =>
    if p c then
      if inRun then collapseRuns p r cs true
      else r :: collapseRuns p r cs true
    else c :: collapseRuns p r cs false

/-- `String.prototype.trim`: strip leading and trailing whitespace. -/
def trimChars (l : List Char) : List Char :=
  ((l.dropWhile isJsSpace).reverse.dropWhile isJsSpace).reverse

/-- The character pipeline of `generateSlug`: lowercase, strip
`[^\w\s-]`, whitespace runs to `-`, hyphen runs to one `-`, trim. -/
def slugChars (l : List Char) : List Char :=
  trimChars (collapseRuns (fun c => c == '-') '-'
    (collapseRuns isJsSpace '-' ((l.map jsToLower).filter keepChar) false) false)

/-- `generateSlug` from `src/src/utils/contentManager.ts`: lowercase the
title, delete every `[^\w\s-]` character, replace each whitespace run
with one hyphen, collapse hyphen runs to one hyphen, then trim. -/
def generateSlug (s : String) : String := ⟨slugChars s.data⟩

/-- Does the character list contain two consecutive hyphens? (negated) -/
def noTwoHyphens : List Char → Bool
  | [] => true
  | [_] => true
  | a :: b :: rest => !(a == '-' && b == '-') && noTwoHyphens (b :: rest)

/-- A character `generateSlug` can emit: kept by the filter, not
whitespace, and fixed by lowercasing. -/
def goodChar (c : Char) : Bool :=
  keepChar c && !isJsSpace c && (jsToLower c == c)

/-- A JavaScript runtime value, as relevant to the API formatting
helpers (`apiContent: any`). -/
inductive JSVal where
  | null
  | undef
  | str (s : String)
  | boolean (b : Bool)
  | num (n : Int)
  | arr (xs : List String)
deriving DecidableEq, Repr

/-- JS truthiness: `null`, `undefined`, the empty string, `false` and
`0` are falsy; every array (even `[]`) is truthy. -/
def JSVal.truthy : JSVal → Bool
  | .null => false
  | .undef => false
  | .str s => !(s == "")
  | .boolean b => b
  | .num n => !(n == 0)
  | .arr _ => true

/-- JS `a || b`. -/
def jsOr (a b : JSVal) : JSVal := if a.truthy then a else b

/-- The raw API content record consumed by `formatContentFromApi`:
numeric `id`, snake_case timestamps, nullable optional columns, `tags`
as attached by the route handlers. -/
structure ApiContent where
  id : Nat
  type : String
  title : String
  content : String
  slug : String
  author : String
  created_at : String
  updated_at : String
  featured : JSVal
  image : JSVal
  category : JSVal
  position : JSVal
  company : JSVal
  tags : JSVal
deriving DecidableEq, Repr

/-- The normalized front-end record produced by `formatContentFromApi`. -/
structure ContentItemJS where
  id : String
  type : String
  title : String
  content : String
  slug : String
  author : String
  createdAt : String
  updatedAt : String
  featured : JSVal
  image : JSVal
  category : JSVal
  tags : JSVal
  position : JSVal
  company : JSVal
deriving DecidableEq, Repr

/-- `formatContentFromApi` from `src/src/utils/contentManager.ts`:
`id.toString()`, snake_case to camelCase timestamps,
`Boolean(featured)`, `image || undefined` (likewise `category`,
`position`, `company`), and `tags || []`. -/
def formatContentFromApi (a : ApiContent) : ContentItemJS :=
  { id := toString a.id, type := a.type, title := a.title,
    content := a.content, slug := a.slug, author := a.author,
    createdAt := a.created_at, updatedAt := a.updated_at,
    featured := .boolean a.featured.truthy,
    image := jsOr a.image .undef,
    category := jsOr a.category .undef,
    tags := jsOr a.tags (.arr []),
    position := jsOr a.position .undef,
    company := jsOr a.company .undef }

/-- A raw API record with null and empty-string optional fields. -/
def apiSample : ApiContent :=
  { id := 5, type := "blog", title := "T", content := "C", slug := "t",
    author := "A", created_at := "2025-01-01", updated_at := "2025-01-02",
    featured := .num 1, image := .null, category := .str "",
    position := .null, company := .str "", tags := .null }

/-- A boolean that is false is not true. -/
theorem bool_ne_true {b : Bool} (h : b = false) : ¬ (b = true) := by
  simp [h]

/-- `runStmt` without an injected fault just runs the statement. -/
theorem runStmt_false {α : Type} (stmt : DB → Except StoreError (α × DB))
    (db : DB) : runStmt false stmt db = stmt db := by
  simp [runStmt]

/-- `runStmt` with an injected fault fails with `injected`. -/
theorem runStmt_true {α : Type} (stmt : DB → Except StoreError (α × DB))
    (db : DB) : runStmt true stmt db = .error .injected := by
  simp [runStmt]

/-- The content INSERT succeeds when no stored row carries the slug. -/
theorem insertContentStmt_ok (req : ContentReq) (now : Nat) (db : DB)
    (hdup : (db.contentRows.any fun r => r.slug == req.slug) = false) :
    insertContentStmt req now db
      = .ok (db.nextContentId, dbAfterInsert db req now) := by
  unfold insertContentStmt
  rw [if_neg (bool_ne_true hdup)]

/-- The content INSERT fails on a duplicate slug. -/
theorem insertContentStmt_dup (req : ContentReq) (now : Nat) (db : DB)
    (hdup : (db.contentRows.any fun r => r.slug == req.slug) = true) :
    insertContentStmt req now db = .error .dupSlug := by
  unfold insertContentStmt
  rw [if_pos hdup]

/-- The bulk tag INSERT succeeds when the content id exists and no pair
duplicates a stored pair or another inserted pair. -/
theorem insertTagsStmt_ok (cid : Nat) (tags : List String) (db : DB)
    (hfk : (db.contentRows.any fun r => r.id == cid) = true)
    (hc : (tags.all (fun t => !db.contentTags.contains (cid, t))
           && !hasDupTags tags) = true) :
    insertTagsStmt cid tags db = .ok ((), dbAfterTags db cid tags) := by
  have h1 : (!db.contentRows.any fun r => r.id == cid) = false := by
    simp [hfk]
  unfold insertTagsStmt
  rw [if_neg (bool_ne_true h1), if_pos hc]

/-- The bulk tag INSERT fails with a duplicate-key error when some pair
repeats. -/
theorem insertTagsStmt_dup (cid : Nat) (tags : List String) (db : DB)
    (hfk : (db.contentRows.any fun r => r.id == cid) = true)
    (hc : (tags.all (fun t => !db.contentTags.contains (cid, t))
           && !hasDupTags tags) = false) :
    insertTagsStmt cid tags db = .error .dupTag := by
  have h1 : (!db.contentRows.any fun r => r.id == cid) = false := by
    simp [hfk]
  unfold insertTagsStmt
  rw [if_neg (bool_ne_true h1), if_neg (bool_ne_true hc)]

/-- The bulk tag INSERT fails with an FK violation when the content id
does not exist. -/
theorem insertTagsStmt_fk (cid : Nat) (tags : List String) (db : DB)
    (hfk : (db.contentRows.any fun r => r.id == cid) = false) :
    insertTagsStmt cid tags db = .error .fkViolation := by
  have h1 : (!db.contentRows.any fun r => r.id == cid) = true := by
    rw [hfk]; rfl
  unfold insertTagsStmt
  rw [if_pos h1]

/-- The content UPDATE on an absent id affects zero rows and succeeds. -/
theorem updateContentStmt_missing (id : Nat) (req : ContentReq) (now : Nat)
    (db : DB) (h : db.contentRows.find? (fun r => r.id == id) = none) :
    updateContentStmt id req now db = .ok ((), db) := by
  unfold updateContentStmt
  rw [h]

/-- The content UPDATE on a present id replaces the row in place when the
new slug duplicates no other row. -/
theorem updateContentStmt_ok (id : Nat) (req : ContentReq) (now : Nat)
    (db : DB) (old : ContentRow)
    (h : db.contentRows.find? (fun r => r.id == id) = some old)
    (hdup : (db.contentRows.any fun r => r.id != id && r.slug == req.slug)
            = false) :
    updateContentStmt id req now db = .ok ((), dbAfterUpdate db id req now) := by
  unfold updateContentStmt
  rw [h]
  rw [if_neg (bool_ne_true hdup)]

/-- C3: a request without the `x-auth-token` header to any mutating
content/media route (content POST/PUT/DELETE, media POST/DELETE) is
answered 401 with the no-token message, and the store is not touched:
the returned database equals the incoming one, whatever the verifier,
body, id, timestamp or fault flags. -/
theorem noToken_unauthorized_no_mutation :
    ∀ (verify : String → Option UserClaims) (db : DB) (req : ContentReq)
      (mreq : MediaReq) (id now : Nat) (f1 f2 f3 f4 f5 : Bool),
      postContentRoute verify none req now f1 f2 db
        = (.unauthorized "No token, authorization denied", db) ∧
      putContentRoute verify none id req now f3 f4 f5 db
        = (.unauthorized "No token, authorization denied", db) ∧
      deleteContentRoute verify none id db
        = (.unauthorized "No token, authorization denied", db) ∧
      postMediaRoute verify none mreq now db
        = (.unauthorized "No token, authorization denied", db) ∧
      deleteMediaRoute verify none id db
        = (.unauthorized "No token, authorization denied", db) ∧
      (postContentRoute verify none req now f1 f2 db).1.status = 401 := by
  intros
  exact ⟨rfl, rfl, rfl, rfl, rfl, rfl⟩

/-- C4: on every mutating content/media route `authenticate` runs before
the `isAdmin` role check: a missing credential yields the authenticate
middleware's 401 no-token message (never `isAdmin`'s own message), and a
valid credential whose role is not `admin` yields 403 with the admin
message; in both cases the database is returned unchanged. -/
theorem authenticate_before_isAdmin_forbidden (verify : String → Option UserClaims)
    (tok : String) (u : UserClaims) (db : DB) (req : ContentReq)
    (mreq : MediaReq) (id now : Nat) (f1 f2 f3 f4 f5 : Bool)
    (hv : verify tok = some u) (hrole : u.role ≠ "admin") :
    postContentRoute verify (some tok) req now f1 f2 db
      = (.forbidden "Access denied. Admin role required.", db) ∧
    putContentRoute verify (some tok) id req now f3 f4 f5 db
      = (.forbidden "Access denied. Admin role required.", db) ∧
    deleteContentRoute verify (some tok) id db
      = (.forbidden "Access denied. Admin role required.", db) ∧
    postMediaRoute verify (some tok) mreq now db
      = (.forbidden "Access denied. Admin role required.", db) ∧
    deleteMediaRoute verify (some tok) id db
      = (.forbidden "Access denied. Admin role required.", db) ∧
    deleteContentRoute verify none id db
      = (.unauthorized "No token, authorization denied", db) := by
  have hb : (u.role == "admin") = false := by
    simpa using hrole
  refine ⟨?_, ?_, ?_, ?_, ?_, rfl⟩ <;>
    simp [postContentRoute, putContentRoute, deleteContentRoute,
          postMediaRoute, deleteMediaRoute, protectedRoute, authenticate,
          isAdmin, hv, hb]

theorem authenticate_before_isAdmin_forbidden_witness :
    postContentRoute editorVerify (some "tok") sampleReq 0 false false emptyDB
      = (.forbidden "Access denied. Admin role required.", emptyDB) ∧
    putContentRoute editorVerify (some "tok") 1 sampleReq 0 false false false emptyDB
      = (.forbidden "Access denied. Admin role required.", emptyDB) ∧
    deleteContentRoute editorVerify (some "tok") 1 emptyDB
      = (.forbidden "Access denied. Admin role required.", emptyDB) ∧
    postMediaRoute editorVerify (some "tok") sampleMediaReq 0 emptyDB
      = (.forbidden "Access denied. Admin role required.", emptyDB) ∧
    deleteMediaRoute editorVerify (some "tok") 1 emptyDB
      = (.forbidden "Access denied. Admin role required.", emptyDB) ∧
    deleteContentRoute editorVerify none 1 emptyDB
      = (.unauthorized "No token, authorization denied", emptyDB) :=
  authenticate_before_isAdmin_forbidden editorVerify "tok"
    { id := 7, role := "editor" } emptyDB sampleReq sampleMediaReq 1 0
    false false false false false rfl (by decide)

/-- C5 (code defect): with no externally supplied key (`JWT_SECRET` unset)
the startup key resolution silently evaluates to the hardcoded compiled-in
default instead of failing fast; the same happens for an empty value. -/
theorem jwtSecret_fallback_on_missing_env :
    jwtSecret none = defaultJwtSecret ∧ jwtSecret (some "") = defaultJwtSecret := by
  exact ⟨rfl, rfl⟩

/-- C7: deleting an id with no stored row returns 404 (`NotFound`) for
both the content and the media DELETE handlers — signalled by an
affected-row count of zero, with no storage error raised (the delete
statements are total functions here) — and leaves the store unchanged. -/
theorem deleteNonexistent_notFound (db : DB) (id : Nat)
    (hc : findContent db id = none) (hm : findMedia db id = none) :
    deleteContentHandler db id = (.notFound "Content not found", db) ∧
    (deleteContentStmt id db).1 = 0 ∧
    deleteMediaHandler db id = (.notFound "Media not found", db) ∧
    (deleteMediaStmt id db).1 = 0 := by
  have hc' : db.contentRows.filter (fun r => r.id == id) = [] := by
    rw [List.filter_eq_nil_iff]
    intro r hr
    have := List.find?_eq_none.1 hc r hr
    simpa using this
  have hm' : db.mediaRows.filter (fun r => r.id == id) = [] := by
    rw [List.filter_eq_nil_iff]
    intro r hr
    have := List.find?_eq_none.1 hm r hr
    simpa using this
  refine ⟨?_, ?_, ?_, ?_⟩ <;>
    simp [deleteContentHandler, deleteContentStmt, deleteMediaHandler,
          deleteMediaStmt, hc', hm']

/-- Looking a freshly inserted row up by its generated id finds exactly
that row when every pre-existing id is smaller (the auto-increment
invariant). -/
theorem find?_fresh_append (rows : List ContentRow) (row : ContentRow)
    (h : ∀ r ∈ rows, r.id < row.id) :
    (rows ++ [row]).find? (fun r => r.id == row.id) = some row := by
  rw [List.find?_append]
  have h1 : rows.find? (fun r => r.id == row.id) = none :=
    List.find?_eq_none.2 (fun r hr => by simpa using Nat.ne_of_lt (h r hr))
  simp [h1, List.find?_cons]

/-- Finding the freshly inserted row after the content INSERT: the
auto-increment invariant makes every pre-existing id smaller, so the
lookup by generated id returns exactly the new row. -/
theorem findContent_afterInsert (db : DB) (req : ContentReq) (now : Nat)
    (hfresh : ∀ r ∈ db.contentRows, r.id < db.nextContentId) :
    findContent (dbAfterInsert db req now) db.nextContentId
      = some (newContentRow req now db.nextContentId) := by
  unfold findContent dbAfterInsert
  exact find?_fresh_append db.contentRows (newContentRow req now db.nextContentId)
    (fun r hr => hfresh r hr)

/-- The bulk tag INSERT does not change the content rows, so content
lookups are unaffected. -/
theorem findContent_afterTags (db : DB) (cid : Nat) (tags : List String)
    (id : Nat) : findContent (dbAfterTags db cid tags) id = findContent db id := rfl

/-- C1: the content POST handler is transactional.  With the
auto-increment invariant (every stored id is below the counter): if any
statement inside the transaction fails — the content INSERT or the bulk
tag INSERT, whether by constraint violation or injected storage fault —
the returned store equals the incoming one (full rollback) and the error
surfaces as the 500 response; on success the 201 body carries the
generated id and is re-read from the committed store (row and tags), and
the committed store is exactly the incoming one plus the new row and its
tag pairs. -/
theorem createContent_transactional (db : DB) (req : ContentReq) (now : Nat)
    (fIns fTags : Bool)
    (hfresh : ∀ r ∈ db.contentRows, r.id < db.nextContentId) :
    (∀ e, (createContentCore db req now fIns fTags).1 = .error e →
        (createContentCore db req now fIns fTags).2 = db ∧
        createContentHandler db req now fIns fTags = (.serverError, db)) ∧
    (∀ body, (createContentCore db req now fIns fTags).1 = .ok body →
        body.row.id = db.nextContentId ∧
        findContent (createContentCore db req now fIns fTags).2 body.row.id
          = some body.row ∧
        body.tags = findTags (createContentCore db req now fIns fTags).2 body.row.id ∧
        (createContentCore db req now fIns fTags).2.contentRows
          = db.contentRows ++ [body.row] ∧
        (createContentCore db req now fIns fTags).2.contentTags
          = db.contentTags ++ req.tags.map (fun t => (body.row.id, t)) ∧
        createContentHandler db req now fIns fTags
          = (.created body, (createContentCore db req now fIns fTags).2)) := by
  cases fIns with
  | true =>
    have hcore : createContentCore db req now true fTags = (.error .injected, db) := by
      unfold createContentCore
      rw [runStmt_true]
    refine ⟨fun e _ => ⟨by rw [hcore], by unfold createContentHandler; rw [hcore]⟩,
            fun body hbody => ?_⟩
    rw [hcore] at hbody
    simp at hbody
  | false =>
    cases hdup : db.contentRows.any (fun r => r.slug == req.slug) with
    | true =>
      have hcore : createContentCore db req now false fTags = (.error .dupSlug, db) := by
        unfold createContentCore
        rw [runStmt_false, insertContentStmt_dup req now db hdup]
      refine ⟨fun e _ => ⟨by rw [hcore], by unfold createContentHandler; rw [hcore]⟩,
              fun body hbody => ?_⟩
      rw [hcore] at hbody
      simp at hbody
    | false =>
      have hins := insertContentStmt_ok req now db hdup
      have hfi := findContent_afterInsert db req now hfresh
      cases hTE : req.tags.isEmpty with
      | true =>
        have hTE2 : req.tags = [] := by simpa using hTE
        have hcore : createContentCore db req now false fTags
            = (.ok ⟨newContentRow req now db.nextContentId,
                    findTags (dbAfterInsert db req now) db.nextContentId⟩,
               dbAfterInsert db req now) := by
          simp [createContentCore, runStmt_false, hins, hTE, hfi]
        refine ⟨fun e he => ?_, fun body hbody => ?_⟩
        · rw [hcore] at he
          simp at he
        · rw [hcore] at hbody
          simp only [Except.ok.injEq] at hbody
          subst hbody
          refine ⟨rfl, ?_, ?_, ?_, ?_, ?_⟩
          · rw [hcore]
            exact hfi
          · simp [hcore, newContentRow]
          · simp [hcore, dbAfterInsert]
          · simp [hcore, dbAfterInsert, hTE2]
          · unfold createContentHandler
            rw [hcore]
      | false =>
        cases fTags with
        | true =>
          have hcore : createContentCore db req now false true = (.error .injected, db) := by
            simp [createContentCore, runStmt_false, hins, hTE, runStmt_true]
          refine ⟨fun e _ => ⟨by rw [hcore], by unfold createContentHandler; rw [hcore]⟩,
                  fun body hbody => ?_⟩
          rw [hcore] at hbody
          simp at hbody
        | false =>
          have hfk : ((dbAfterInsert db req now).contentRows.any
              (fun r => r.id == db.nextContentId)) = true := by
            simp [dbAfterInsert, newContentRow]
          cases hcond : (req.tags.all
              (fun t => !(dbAfterInsert db req now).contentTags.contains
                          (db.nextContentId, t))
              && !hasDupTags req.tags) with
          | false =>
            have htags := insertTagsStmt_dup db.nextContentId req.tags
              (dbAfterInsert db req now) hfk hcond
            have hcore : createContentCore db req now false false
                = (.error .dupTag, db) := by
              simp [createContentCore, runStmt_false, hins, hTE, htags]
            refine ⟨fun e _ => ⟨by rw [hcore], by unfold createContentHandler; rw [hcore]⟩,
                    fun body hbody => ?_⟩
            rw [hcore] at hbody
            simp at hbody
          | true =>
            have htags := insertTagsStmt_ok db.nextContentId req.tags
              (dbAfterInsert db req now) hfk hcond
            have hfi2 : findContent
                (dbAfterTags (dbAfterInsert db req now) db.nextContentId req.tags)
                db.nextContentId
                = some (newContentRow req now db.nextContentId) := by
              rw [findContent_afterTags]
              exact hfi
            have hcore : createContentCore db req now false false
                = (.ok ⟨newContentRow req now db.nextContentId,
                        findTags (dbAfterTags (dbAfterInsert db req now)
                          db.nextContentId req.tags) db.nextContentId⟩,
                   dbAfterTags (dbAfterInsert db req now) db.nextContentId req.tags) := by
              simp [createContentCore, runStmt_false, hins, hTE, htags, hfi2]
            refine ⟨fun e he => ?_, fun body hbody => ?_⟩
            · rw [hcore] at he
              simp at he
            · rw [hcore] at hbody
              simp only [Except.ok.injEq] at hbody
              subst hbody
              refine ⟨rfl, ?_, ?_, ?_, ?_, ?_⟩
              · rw [hcore]
                exact hfi2
              · simp [hcore, newContentRow]
              · simp [hcore, dbAfterTags, dbAfterInsert]
              · simp [hcore, dbAfterTags, dbAfterInsert, newContentRow]
              · unfold createContentHandler
                rw [hcore]

theorem createContent_transactional_witness :
    createdSampleBody.row.id = emptyDB.nextContentId ∧
    findContent (createContentCore emptyDB sampleReq 0 false false).2
      createdSampleBody.row.id = some createdSampleBody.row ∧
    createdSampleBody.tags
      = findTags (createContentCore emptyDB sampleReq 0 false false).2
          createdSampleBody.row.id ∧
    (createContentCore emptyDB sampleReq 0 false false).2.contentRows
      = emptyDB.contentRows ++ [createdSampleBody.row] ∧
    (createContentCore emptyDB sampleReq 0 false false).2.contentTags
      = emptyDB.contentTags
          ++ sampleReq.tags.map (fun t => (createdSampleBody.row.id, t)) ∧
    createContentHandler emptyDB sampleReq 0 false false
      = (.created createdSampleBody,
         (createContentCore emptyDB sampleReq 0 false false).2) :=
  (createContent_transactional emptyDB sampleReq 0 false false
      (by decide)).2 createdSampleBody rfl

theorem deleteNonexistent_notFound_witness :
    deleteContentHandler emptyDB 1 = (.notFound "Content not found", emptyDB) ∧
    (deleteContentStmt 1 emptyDB).1 = 0 ∧
    deleteMediaHandler emptyDB 1 = (.notFound "Media not found", emptyDB) ∧
    (deleteMediaStmt 1 emptyDB).1 = 0 :=
  deleteNonexistent_notFound emptyDB 1 rfl rfl


/-- Updating rows in place commutes with the lookup by the updated id:
the first match is the updated first match. -/
theorem find?_map_update (rows : List ContentRow) (id : Nat)
    (req : ContentReq) (now : Nat) :
    (rows.map (fun r => if r.id == id then applyContentReq r req now else r)).find?
        (fun r => r.id == id)
      = (rows.find? (fun r => r.id == id)).map
          (fun r => applyContentReq r req now) := by
  induction rows with
  | nil => rfl
  | cons a l ih =>
    rw [List.map_cons]
    by_cases ha : a.id = id
    · have h1 : (if (a.id == id) = true then applyContentReq a req now else a)
          = applyContentReq a req now := by
        simp [ha]
      rw [h1, List.find?_cons_of_pos _ (by simp [applyContentReq, ha]),
          List.find?_cons_of_pos _ (by simp [ha])]
      rfl
    · have h1 : (if (a.id == id) = true then applyContentReq a req now else a)
          = a := by
        simp [ha]
      rw [h1, List.find?_cons_of_neg _ (by simp [ha]),
          List.find?_cons_of_neg _ (by simp [ha])]
      exact ih

/-- Content lookup after the UPDATE statement. -/
theorem findContent_afterUpdate (db : DB) (id : Nat) (req : ContentReq)
    (now : Nat) :
    findContent (dbAfterUpdate db id req now) id
      = (db.contentRows.find? (fun r => r.id == id)).map
          (fun r => applyContentReq r req now) := by
  unfold findContent dbAfterUpdate
  exact find?_map_update _ _ _ _

/-- The tag DELETE does not touch content rows. -/
theorem findContent_deleteTags (db : DB) (id id2 : Nat) :
    findContent (deleteTagsStmt id db) id2 = findContent db id2 := rfl

/-- After `DELETE FROM content_tags WHERE content_id = ?` the id has no
tags. -/
theorem findTags_deleteTags (db : DB) (id : Nat) :
    findTags (deleteTagsStmt id db) id = [] := by
  simp only [findTags, deleteTagsStmt]
  rw [List.filter_filter]
  have h0 : db.contentTags.filter (fun a => (a.1 == id) && (a.1 != id)) = [] :=
    List.filter_eq_nil_iff.2 (fun a _ => by by_cases h : a.1 = id <;> simp [h])
  rw [h0]
  rfl

/-- Bulk-inserted pairs of one id, filtered back by that id, give back
the tag list. -/
theorem pairs_filter_map (id : Nat) (tags : List String) :
    ((tags.map (fun t => (id, t))).filter (fun p => p.1 == id)).map
        (fun p => p.2) = tags := by
  induction tags with
  | nil => rfl
  | cons a l ih => simp [ih]

/-- Tag lookup after the bulk INSERT, when the id held no tags before:
exactly the inserted list, in order. -/
theorem findTags_afterTags_self (db : DB) (id : Nat) (tags : List String)
    (hdel : findTags db id = []) :
    findTags (dbAfterTags db id tags) id = tags := by
  have h1 : db.contentTags.filter (fun p => p.1 == id) = [] := by
    have := hdel
    unfold findTags at this
    exact List.map_eq_nil_iff.1 this
  unfold findTags dbAfterTags
  simp [List.filter_append, h1, pairs_filter_map]

/-- C2: the content PUT handler is a full replace, not a merge.  Whenever
the transaction succeeds, the read-back row is the stored row with every
writable field overwritten from the request — `featured` substituting
`false` when absent — the committed content rows are exactly the
incoming rows with the target replaced in place, the committed tag set
for the id is exactly the submitted list (the old tag rows were deleted
first), and in particular submitting zero tags yields an empty tag set
on read-back. -/
theorem updateContent_full_replace (db : DB) (id : Nat) (req : ContentReq)
    (now : Nat) (body : ContentBody) (db2 : DB)
    (h : updateContentCore db id req now false false false = (.ok body, db2)) :
    (∃ old, old ∈ db.contentRows ∧ old.id = id ∧
        body.row = applyContentReq old req now) ∧
    body.row.featured = req.featured.getD false ∧
    (req.featured = none → body.row.featured = false) ∧
    db2.contentRows = (dbAfterUpdate db id req now).contentRows ∧
    findTags db2 id = req.tags ∧
    body.tags = req.tags ∧
    (req.tags = [] → findTags db2 id = []) ∧
    updateContentHandler db id req now false false false
      = (.okBody body, db2) := by
  cases hfound : db.contentRows.find? (fun r => r.id == id) with
  | none =>
    have hupd := updateContentStmt_missing id req now db hfound
    cases hTE : req.tags.isEmpty with
    | true =>
      have hnf : findContent (deleteTagsStmt id db) id = none := by
        rw [findContent_deleteTags]
        exact hfound
      have hcore : updateContentCore db id req now false false false
          = (.error .undefinedAccess, deleteTagsStmt id db) := by
        simp [updateContentCore, runStmt_false, hupd, hTE, hnf]
      rw [hcore] at h
      simp at h
    | false =>
      have hfk : ((deleteTagsStmt id db).contentRows.any
          (fun r => r.id == id)) = false := by
        have hnone := List.find?_eq_none.1 hfound
        simp only [deleteTagsStmt]
        rw [List.any_eq_false]
        intro r hr
        simpa using hnone r hr
      have htag := insertTagsStmt_fk id req.tags (deleteTagsStmt id db) hfk
      have hcore : updateContentCore db id req now false false false
          = (.error .fkViolation, db) := by
        simp [updateContentCore, runStmt_false, hupd, hTE, htag]
      rw [hcore] at h
      simp at h
  | some old =>
    have holdid : old.id = id := by
      have := List.find?_some hfound
      simpa using this
    have holdmem : old ∈ db.contentRows := List.mem_of_find?_eq_some hfound
    cases hdup2 : db.contentRows.any (fun r => r.id != id && r.slug == req.slug) with
    | true =>
      have hupd : updateContentStmt id req now db = .error .dupSlug := by
        unfold updateContentStmt
        rw [hfound, if_pos hdup2]
      have hcore : updateContentCore db id req now false false false
          = (.error .dupSlug, db) := by
        simp [updateContentCore, runStmt_false, hupd]
      rw [hcore] at h
      simp at h
    | false =>
      have hupd := updateContentStmt_ok id req now db old hfound hdup2
      have hfc : findContent (deleteTagsStmt id (dbAfterUpdate db id req now)) id
          = some (applyContentReq old req now) := by
        rw [findContent_deleteTags, findContent_afterUpdate, hfound]
        rfl
      cases hTE : req.tags.isEmpty with
      | true =>
        have hTE2 : req.tags = [] := by simpa using hTE
        have hcore : updateContentCore db id req now false false false
            = (.ok ⟨applyContentReq old req now,
                    findTags (deleteTagsStmt id (dbAfterUpdate db id req now)) id⟩,
               deleteTagsStmt id (dbAfterUpdate db id req now)) := by
          simp [updateContentCore, runStmt_false, hupd, hTE, hfc]
        rw [hcore] at h
        simp only [Prod.mk.injEq, Except.ok.injEq] at h
        obtain ⟨hb, hdb⟩ := h
        subst hb
        subst hdb
        refine ⟨⟨old, holdmem, holdid, rfl⟩, ?_, ?_, rfl, ?_, ?_, ?_, ?_⟩
        · simp [applyContentReq]
        · intro hf
          simp [applyContentReq, hf]
        · rw [findTags_deleteTags, hTE2]
        · simp [findTags_deleteTags, hTE2]
        · intro _
          rw [findTags_deleteTags]
        · unfold updateContentHandler
          rw [hcore]
      | false =>
        have hfk2 : ((deleteTagsStmt id (dbAfterUpdate db id req now)).contentRows.any
            (fun r => r.id == id)) = true := by
          simp only [deleteTagsStmt, dbAfterUpdate]
          rw [List.any_eq_true]
          refine ⟨applyContentReq old req now, ?_, by simp [applyContentReq, holdid]⟩
          refine List.mem_map.2 ⟨old, holdmem, ?_⟩
          simp [holdid]
        cases hcond : (req.tags.all (fun t =>
            !(deleteTagsStmt id (dbAfterUpdate db id req now)).contentTags.contains (id, t))
            && !hasDupTags req.tags) with
        | false =>
          have htag := insertTagsStmt_dup id req.tags
            (deleteTagsStmt id (dbAfterUpdate db id req now)) hfk2 hcond
          have hcore : updateContentCore db id req now false false false
              = (.error .dupTag, db) := by
            simp [updateContentCore, runStmt_false, hupd, hTE, htag]
          rw [hcore] at h
          simp at h
        | true =>
          have htag := insertTagsStmt_ok id req.tags
            (deleteTagsStmt id (dbAfterUpdate db id req now)) hfk2 hcond
          have hfc2 : findContent (dbAfterTags
              (deleteTagsStmt id (dbAfterUpdate db id req now)) id req.tags) id
              = some (applyContentReq old req now) := by
            rw [findContent_afterTags]
            exact hfc
          have hcore : updateContentCore db id req now false false false
              = (.ok ⟨applyContentReq old req now,
                      findTags (dbAfterTags
                        (deleteTagsStmt id (dbAfterUpdate db id req now)) id req.tags) id⟩,
                 dbAfterTags (deleteTagsStmt id (dbAfterUpdate db id req now)) id req.tags) := by
            simp [updateContentCore, runStmt_false, hupd, hTE, htag, hfc2]
          rw [hcore] at h
          simp only [Prod.mk.injEq, Except.ok.injEq] at h
          obtain ⟨hb, hdb⟩ := h
          subst hb
          subst hdb
          have htagsres : findTags (dbAfterTags
              (deleteTagsStmt id (dbAfterUpdate db id req now)) id req.tags) id
              = req.tags :=
            findTags_afterTags_self _ _ _ (findTags_deleteTags _ _)
          refine ⟨⟨old, holdmem, holdid, rfl⟩, ?_, ?_, rfl, ?_, ?_, ?_, ?_⟩
          · simp [applyContentReq]
          · intro hf
            simp [applyContentReq, hf]
          · exact htagsres
          · simpa using htagsres
          · intro h0
            rw [htagsres, h0]
          · unfold updateContentHandler
            rw [hcore]

theorem updateContent_full_replace_witness :
    (∃ old, old ∈ updSampleDB.contentRows ∧ old.id = 1 ∧
        updSampleBody.row = applyContentReq old updSampleReq 5) ∧
    updSampleBody.row.featured = updSampleReq.featured.getD false ∧
    (updSampleReq.featured = none → updSampleBody.row.featured = false) ∧
    updSampleDB2.contentRows = (dbAfterUpdate updSampleDB 1 updSampleReq 5).contentRows ∧
    findTags updSampleDB2 1 = updSampleReq.tags ∧
    updSampleBody.tags = updSampleReq.tags ∧
    (updSampleReq.tags = [] → findTags updSampleDB2 1 = []) ∧
    updateContentHandler updSampleDB 1 updSampleReq 5 false false false
      = (.okBody updSampleBody, updSampleDB2) :=
  updateContent_full_replace updSampleDB 1 updSampleReq 5 updSampleBody
    updSampleDB2 rfl


/-- When no stored tag pair carries the id, the tag DELETE is a no-op and
the store is returned unchanged. -/
theorem deleteTagsStmt_noop (db : DB) (id : Nat)
    (hfk : ∀ p ∈ db.contentTags, p.1 ≠ id) :
    deleteTagsStmt id db = db := by
  have h1 : db.contentTags.filter (fun p => p.1 != id) = db.contentTags :=
    List.filter_eq_self.2 (fun a ha => by simpa using hfk a ha)
  unfold deleteTagsStmt
  rw [h1]

/-- C6 (amended): for an update whose target id does not exist, the
content UPDATE affects zero rows and succeeds, the handler still runs the
tag replacement and the read-back, and the request fails as a generic 500
server error — the read-back returns no row and the JS access to it
throws (empty tag list), or the tag re-insert hits an FK violation
(non-empty tag list) — never an explicit NotFound; when no stored tag
pair carries the id, the store is returned unchanged. -/
theorem updateNonexistent_serverError (db : DB) (id : Nat) (req : ContentReq)
    (now : Nat) (hmiss : findContent db id = none)
    (hfk : ∀ p ∈ db.contentTags, p.1 ≠ id) :
    updateContentHandler db id req now false false false = (.serverError, db) ∧
    (updateContentCore db id req now false false false).1
      = .error (if req.tags.isEmpty then .undefinedAccess else .fkViolation) ∧
    (updateContentHandler db id req now false false false).1.status = 500 := by
  have hfound : db.contentRows.find? (fun r => r.id == id) = none := hmiss
  have hupd := updateContentStmt_missing id req now db hfound
  have hdel := deleteTagsStmt_noop db id hfk
  cases hTE : req.tags.isEmpty with
  | true =>
    have hcore : updateContentCore db id req now false false false
        = (.error .undefinedAccess, db) := by
      simp [updateContentCore, runStmt_false, hupd, hTE, hdel, hmiss]
    refine ⟨?_, ?_, ?_⟩
    · unfold updateContentHandler
      rw [hcore]
    · rw [hcore]
      rfl
    · unfold updateContentHandler
      rw [hcore]
      rfl
  | false =>
    have hany : (db.contentRows.any (fun r => r.id == id)) = false := by
      rw [List.any_eq_false]
      intro r hr
      simpa using List.find?_eq_none.1 hfound r hr
    have htag := insertTagsStmt_fk id req.tags db hany
    have hcore : updateContentCore db id req now false false false
        = (.error .fkViolation, db) := by
      simp [updateContentCore, runStmt_false, hupd, hTE, hdel, htag]
    refine ⟨?_, ?_, ?_⟩
    · unfold updateContentHandler
      rw [hcore]
    · rw [hcore]
      rfl
    · unfold updateContentHandler
      rw [hcore]
      rfl

theorem updateNonexistent_serverError_witness :
    updateContentHandler emptyDB 1 sampleReq 5 false false false
      = (.serverError, emptyDB) ∧
    (updateContentCore emptyDB 1 sampleReq 5 false false false).1
      = .error (if sampleReq.tags.isEmpty then .undefinedAccess else .fkViolation) ∧
    (updateContentHandler emptyDB 1 sampleReq 5 false false false).1.status = 500 :=
  updateNonexistent_serverError emptyDB 1 sampleReq 5 rfl (by decide)

/-- C6, the claim as frozen, is false on the code: updating a missing id
answers 500 `Server error`, not a NotFound response — here concretely on
the empty store. -/
theorem updateNonexistent_counterexample :
    (updateContentHandler emptyDB 1 sampleReq 5 false false false).1
      = Resp.serverError ∧
    (updateContentHandler emptyDB 1 sampleReq 5 false false false).1.status = 500 ∧
    (updateContentHandler emptyDB 1 sampleReq 5 false false false).2 = emptyDB :=
  ⟨rfl, rfl, rfl⟩


/-- C8, the claim as frozen, is false on the code: a type filter that is
not one of the enum values is still pushed into `WHERE type = ?` and
matches nothing, so it returns the empty list — not all content (the
absent filter does return all content, here the one stored row). -/
theorem listContent_unknownFilter_counterexample :
    listContent c8DB (some "bogus") = [] ∧
    listContent c8DB none = [⟨c8Row, []⟩] :=
  ⟨rfl, rfl⟩

/-- C8 (amended): `listContent` with a non-empty type filter returns
exactly the rows whose type equals the filter value — so an unknown
value yields the empty result, not all content — ordered by `updatedAt`
descending, each row carrying its tag lookup; only an absent (or empty,
JS-falsy) filter returns all content, in the same order. -/
theorem listContent_filter_order (db : DB) (t : String) (ht : t ≠ "") :
    List.Perm ((listContent db (some t)).map ContentBody.row)
      (db.contentRows.filter (fun r => r.type == t)) ∧
    (∀ b ∈ listContent db (some t), b.row.type = t) ∧
    List.Sorted updatedDesc ((listContent db (some t)).map ContentBody.row) ∧
    (∀ b ∈ listContent db (some t), b.tags = findTags db b.row.id) ∧
    List.Perm ((listContent db none).map ContentBody.row) db.contentRows ∧
    List.Sorted updatedDesc ((listContent db none).map ContentBody.row) := by
  have hbeq : (t == "") = false := by
    simpa using ht
  have hsome : listContent db (some t)
      = (List.insertionSort updatedDesc
          (db.contentRows.filter (fun r => r.type == t))).map
          (fun r => ⟨r, findTags db r.id⟩) := by
    simp only [listContent]
    rw [if_neg (bool_ne_true hbeq)]
  have hnone : listContent db none
      = (List.insertionSort updatedDesc db.contentRows).map
          (fun r => ⟨r, findTags db r.id⟩) := rfl
  have hmapmap : ∀ (X : List ContentRow),
      ((X.map (fun r => (⟨r, findTags db r.id⟩ : ContentBody))).map
          ContentBody.row) = X := by
    intro X
    have hcomp : (ContentBody.row ∘ fun r => (⟨r, findTags db r.id⟩ : ContentBody))
        = id := rfl
    rw [List.map_map, hcomp, List.map_id]
  refine ⟨?_, ?_, ?_, ?_, ?_, ?_⟩
  · rw [hsome, hmapmap]
    exact List.perm_insertionSort updatedDesc _
  · intro b hb
    rw [hsome] at hb
    obtain ⟨r, hr, rfl⟩ := List.mem_map.1 hb
    have hr2 : r ∈ db.contentRows.filter (fun r => r.type == t) :=
      (List.mem_insertionSort updatedDesc).1 hr
    have := List.of_mem_filter hr2
    simpa using this
  · rw [hsome, hmapmap]
    exact List.sorted_insertionSort updatedDesc _
  · intro b hb
    rw [hsome] at hb
    obtain ⟨r, hr, rfl⟩ := List.mem_map.1 hb
    rfl
  · rw [hnone, hmapmap]
    exact List.perm_insertionSort updatedDesc _
  · rw [hnone, hmapmap]
    exact List.sorted_insertionSort updatedDesc _

theorem listContent_filter_order_witness :
    List.Perm ((listContent c8DB (some "bogus")).map ContentBody.row)
      (c8DB.contentRows.filter (fun r => r.type == "bogus")) ∧
    (∀ b ∈ listContent c8DB (some "bogus"), b.row.type = "bogus") ∧
    List.Sorted updatedDesc
      ((listContent c8DB (some "bogus")).map ContentBody.row) ∧
    (∀ b ∈ listContent c8DB (some "bogus"), b.tags = findTags c8DB b.row.id) ∧
    List.Perm ((listContent c8DB none).map ContentBody.row) c8DB.contentRows ∧
    List.Sorted updatedDesc ((listContent c8DB none).map ContentBody.row) :=
  listContent_filter_order c8DB "bogus" (by decide)


/-- An ASCII word character is not a JS whitespace character. -/
theorem wordChar_not_space {c : Char} (h : isWordChar c = true) :
    isJsSpace c = false := by
  simp only [isWordChar, Bool.or_eq_true, Bool.and_eq_true,
    decide_eq_true_eq, beq_iff_eq] at h
  simp only [isJsSpace, Bool.or_eq_false_iff, Bool.and_eq_false_iff,
    decide_eq_false_iff_not, beq_eq_false_iff_ne, ne_eq]
  omega

/-- A kept, non-whitespace character is a word character or the hyphen. -/
theorem keep_not_space {c : Char} (hk : keepChar c = true)
    (hs : isJsSpace c = false) : isWordChar c = true ∨ c = '-' := by
  simp only [keepChar, Bool.or_eq_true] at hk
  rcases hk with (hw | hsp) | hh
  · exact .inl hw
  · rw [hs] at hsp
    cases hsp
  · exact .inr (by simpa using hh)

/-- `Char.ofNat` round-trips on the lowercase ASCII codes. -/
theorem toNat_ofNat_lower (n : Nat) (h1 : 65 ≤ n) (h2 : n ≤ 90) :
    (Char.ofNat (n + 32)).toNat = n + 32 := by
  interval_cases n <;> decide

/-- `jsToLower` is idempotent. -/
theorem jsToLower_idem (c : Char) : jsToLower (jsToLower c) = jsToLower c := by
  by_cases h : 65 ≤ c.toNat ∧ c.toNat ≤ 90
  · have h1 : jsToLower c = Char.ofNat (c.toNat + 32) := by
      unfold jsToLower
      rw [if_pos h]
    have hto := toNat_ofNat_lower c.toNat h.1 h.2
    rw [h1]
    unfold jsToLower
    rw [if_neg (by rw [hto]; omega)]
  · have h1 : jsToLower c = c := by
      unfold jsToLower
      rw [if_neg h]
    rw [h1, h1]

/-- A word character stays a kept, lowercase-fixed character after
`jsToLower` has been applied somewhere upstream: concretely, `jsToLower`
fixes any character that is not uppercase ASCII. -/
theorem jsToLower_fix {c : Char} (h : ¬(65 ≤ c.toNat ∧ c.toNat ≤ 90)) :
    jsToLower c = c := by
  unfold jsToLower
  rw [if_neg h]

/-- Unfolding `collapseRuns` at a run character in idle state. -/
theorem collapseRuns_pos_false (p : Char → Bool) (r a : Char)
    (t : List Char) (hpa : p a = true) :
    collapseRuns p r (a :: t) false = r :: collapseRuns p r t true := by
  simp [collapseRuns, hpa]

/-- Unfolding `collapseRuns` at a run character inside a run. -/
theorem collapseRuns_pos_true (p : Char → Bool) (r a : Char)
    (t : List Char) (hpa : p a = true) :
    collapseRuns p r (a :: t) true = collapseRuns p r t true := by
  simp [collapseRuns, hpa]

/-- Unfolding `collapseRuns` at a non-run character. -/
theorem collapseRuns_neg (p : Char → Bool) (r a : Char)
    (t : List Char) (b : Bool) (hpa : p a = false) :
    collapseRuns p r (a :: t) b = a :: collapseRuns p r t false := by
  simp [collapseRuns, hpa]

/-- Every character of a collapsed list is the replacement character or a
non-run character of the input. -/
theorem mem_collapseRuns {p : Char → Bool} {r : Char} :
    ∀ {l : List Char} {b : Bool} {c : Char}, c ∈ collapseRuns p r l b →
      c = r ∨ (c ∈ l ∧ p c = false) := by
  intro l
  induction l with
  | nil =>
    intro b c h
    simp [collapseRuns] at h
  | cons a t ih =>
    intro b c h
    by_cases hpa : p a = true
    · cases b with
      | true =>
        rw [collapseRuns_pos_true p r a t hpa] at h
        rcases ih h with h1 | ⟨h2, h3⟩
        · exact .inl h1
        · exact .inr ⟨List.mem_cons_of_mem a h2, h3⟩
      | false =>
        rw [collapseRuns_pos_false p r a t hpa] at h
        rcases List.mem_cons.1 h with h0 | h1
        · exact .inl h0
        · rcases ih h1 with h1 | ⟨h2, h3⟩
          · exact .inl h1
          · exact .inr ⟨List.mem_cons_of_mem a h2, h3⟩
    · have hpaf : p a = false := by simpa using hpa
      rw [collapseRuns_neg p r a t b hpaf] at h
      rcases List.mem_cons.1 h with h0 | h1
      · subst h0
        exact .inr ⟨List.mem_cons_self c t, hpaf⟩
      · rcases ih h1 with h1 | ⟨h2, h3⟩
        · exact .inl h1
        · exact .inr ⟨List.mem_cons_of_mem a h2, h3⟩

/-- Inside a run, the collapsed output starts with a non-run character
(further run characters are swallowed). -/
theorem head_collapseRuns_true {p : Char → Bool} {r : Char} :
    ∀ (l : List Char) {c : Char},
      (collapseRuns p r l true).head? = some c → p c = false := by
  intro l
  induction l with
  | nil =>
    intro c h
    simp [collapseRuns] at h
  | cons a t ih =>
    intro c h
    by_cases hpa : p a = true
    · rw [collapseRuns_pos_true p r a t hpa] at h
      exact ih h
    · have hpaf : p a = false := by simpa using hpa
      rw [collapseRuns_neg p r a t true hpaf] at h
      simp only [List.head?_cons, Option.some.injEq] at h
      subst h
      exact hpaf

/-- Unfolding `noTwoHyphens` at two leading characters. -/
theorem noTwoHyphens_cons_cons (a x : Char) (xs : List Char) :
    noTwoHyphens (a :: x :: xs)
      = ((!(a == '-' && x == '-')) && noTwoHyphens (x :: xs)) := rfl

/-- Collapsing hyphen runs leaves no two consecutive hyphens. -/
theorem noTwoHyphens_collapse :
    ∀ (l : List Char) (b : Bool),
      noTwoHyphens (collapseRuns (fun c => c == '-') '-' l b) = true := by
  intro l
  induction l with
  | nil =>
    intro b
    rfl
  | cons a t ih =>
    intro b
    by_cases hpa : ((fun c => c == '-') a) = true
    · cases b with
      | true =>
        rw [collapseRuns_pos_true (fun c => c == '-') '-' a t hpa]
        exact ih true
      | false =>
        rw [collapseRuns_pos_false (fun c => c == '-') '-' a t hpa]
        cases hcl : collapseRuns (fun c => c == '-') '-' t true with
        | nil => rfl
        | cons x xs =>
          have hx : (x == '-') = false := by
            have := head_collapseRuns_true t (c := x) (by rw [hcl]; rfl)
            simpa using this
          have h2 := ih true
          rw [hcl] at h2
          rw [noTwoHyphens_cons_cons]
          simp [hx, h2]
    · have hpaf : (a == '-') = false := by simpa using hpa
      rw [collapseRuns_neg (fun c => c == '-') '-' a t b hpaf]
      cases hcl : collapseRuns (fun c => c == '-') '-' t false with
      | nil => rfl
      | cons x xs =>
        have h2 := ih false
        rw [hcl] at h2
        rw [noTwoHyphens_cons_cons]
        simp [hpaf, h2]

/-- Collapsing is the identity on a list with no run characters at all. -/
theorem collapseRuns_id_of_none {p : Char → Bool} {r : Char} :
    ∀ (l : List Char), (∀ c ∈ l, p c = false) →
      collapseRuns p r l false = l := by
  intro l
  induction l with
  | nil =>
    intro _
    rfl
  | cons a t ih =>
    intro h
    rw [collapseRuns_neg p r a t false (h a (List.mem_cons_self a t))]
    rw [ih (fun c hc => h c (List.mem_cons_of_mem a hc))]

/-- Collapsing hyphen runs is the identity on a list that already has no
two consecutive hyphens (in idle state; in run state additionally when
the head is not a hyphen). -/
theorem collapseHyphens_id :
    ∀ (l : List Char),
      (noTwoHyphens l = true →
        collapseRuns (fun c => c == '-') '-' l false = l) ∧
      (noTwoHyphens l = true →
        (∀ c, l.head? = some c → (c == '-') = false) →
        collapseRuns (fun c => c == '-') '-' l true = l) := by
  intro l
  induction l with
  | nil => exact ⟨fun _ => rfl, fun _ _ => rfl⟩
  | cons a t ih =>
    constructor
    · intro hnt
      by_cases hpa : ((fun c => c == '-') a) = true
      · rw [collapseRuns_pos_false (fun c => c == '-') '-' a t hpa]
        have ha : a = '-' := by simpa using hpa
        subst ha
        have htail : collapseRuns (fun c => c == '-') '-' t true = t := by
          cases t with
          | nil => rfl
          | cons x xs =>
            rw [noTwoHyphens_cons_cons] at hnt
            rw [Bool.and_eq_true] at hnt
            have hx : (x == '-') = false := by
              simpa using hnt.1
            refine (ih.2) hnt.2 ?_
            intro c hc
            simp only [List.head?_cons, Option.some.injEq] at hc
            subst hc
            exact hx
        rw [htail]
      · have hpaf : (a == '-') = false := by simpa using hpa
        rw [collapseRuns_neg (fun c => c == '-') '-' a t false hpaf]
        have htail : noTwoHyphens t = true := by
          cases t with
          | nil => rfl
          | cons x xs =>
            rw [noTwoHyphens_cons_cons, Bool.and_eq_true] at hnt
            exact hnt.2
        rw [(ih.1) htail]
    · intro hnt hhd
      have hpa : (a == '-') = false := hhd a rfl
      rw [collapseRuns_neg (fun c => c == '-') '-' a t true hpa]
      have htail : noTwoHyphens t = true := by
        cases t with
        | nil => rfl
        | cons x xs =>
          rw [noTwoHyphens_cons_cons, Bool.and_eq_true] at hnt
          exact hnt.2
      rw [(ih.1) htail]

/-- Trimming is the identity on a list with no whitespace. -/
theorem trimChars_id (l : List Char) (h : ∀ c ∈ l, isJsSpace c = false) :
    trimChars l = l := by
  have hd : ∀ (m : List Char), (∀ c ∈ m, isJsSpace c = false) →
      m.dropWhile isJsSpace = m := by
    intro m hm
    cases m with
    | nil => rfl
    | cons a t =>
      rw [List.dropWhile_cons_of_neg]
      exact bool_ne_true (hm a (List.mem_cons_self a t))
  unfold trimChars
  rw [hd l h, hd l.reverse (fun c hc => h c (List.mem_reverse.1 hc)),
      List.reverse_reverse]

/-- The output characters of `slugChars`: no whitespace, no two
consecutive hyphens, and every character is kept, lowercase-fixed and
non-whitespace (`goodChar`); moreover the trailing trim is a no-op. -/
theorem slugChars_output (l : List Char) :
    (∀ c ∈ slugChars l, goodChar c = true) ∧
    (∀ c ∈ slugChars l, isJsSpace c = false) ∧
    noTwoHyphens (slugChars l) = true := by
  set x := (l.map jsToLower).filter keepChar with hx
  set y := collapseRuns isJsSpace '-' x false with hy
  set z := collapseRuns (fun c => c == '-') '-' y false with hz
  have hxmem : ∀ c ∈ x, keepChar c = true ∧ jsToLower c = c := by
    intro c hc
    rw [hx] at hc
    obtain ⟨hcm, hck⟩ := List.mem_filter.1 hc
    refine ⟨hck, ?_⟩
    obtain ⟨c0, _, rfl⟩ := List.mem_map.1 hcm
    exact jsToLower_idem c0
  have hymem : ∀ c ∈ y, c = '-' ∨ (c ∈ x ∧ isJsSpace c = false) := by
    intro c hc
    rw [hy] at hc
    exact mem_collapseRuns hc
  have hynospace : ∀ c ∈ y, isJsSpace c = false := by
    intro c hc
    rcases hymem c hc with rfl | ⟨_, hs⟩
    · decide
    · exact hs
  have hzmem : ∀ c ∈ z, c = '-' ∨ (c ∈ x ∧ isJsSpace c = false) := by
    intro c hc
    rw [hz] at hc
    rcases mem_collapseRuns hc with rfl | ⟨hcy, _⟩
    · exact .inl rfl
    · exact hymem c hcy
  have hznospace : ∀ c ∈ z, isJsSpace c = false := by
    intro c hc
    rcases hzmem c hc with rfl | ⟨_, hs⟩
    · decide
    · exact hs
  have hslug : slugChars l = z := by
    unfold slugChars
    rw [← hx, ← hy, ← hz]
    exact trimChars_id z hznospace
  have hgood : ∀ c ∈ z, goodChar c = true := by
    intro c hc
    rcases hzmem c hc with rfl | ⟨hcx, hs⟩
    · decide
    · obtain ⟨hk, hlow⟩ := hxmem c hcx
      simp [goodChar, hk, hs, hlow]
  refine ⟨?_, ?_, ?_⟩
  · rw [hslug]
    exact hgood
  · rw [hslug]
    exact hznospace
  · rw [hslug, hz]
    exact noTwoHyphens_collapse y false

/-- `slugChars` is the identity on its own output. -/
theorem slugChars_fixed (l : List Char)
    (hg : ∀ c ∈ l, goodChar c = true)
    (hnt : noTwoHyphens l = true) : slugChars l = l := by
  have hlow : l.map jsToLower = l := by
    have : ∀ c ∈ l, jsToLower c = c := by
      intro c hc
      have := hg c hc
      simp only [goodChar, Bool.and_eq_true, beq_iff_eq] at this
      exact this.2
    calc l.map jsToLower = l.map id := List.map_congr_left this
    _ = l := List.map_id l
  have hkeep : l.filter keepChar = l := by
    refine List.filter_eq_self.2 (fun c hc => ?_)
    have := hg c hc
    simp only [goodChar, Bool.and_eq_true] at this
    exact this.1.1
  have hnospace : ∀ c ∈ l, isJsSpace c = false := by
    intro c hc
    have := hg c hc
    simp only [goodChar, Bool.and_eq_true, Bool.not_eq_true'] at this
    exact this.1.2
  unfold slugChars
  rw [hlow, hkeep, collapseRuns_id_of_none l hnospace,
      (collapseHyphens_id l).1 hnt, trimChars_id l hnospace]

/-- C9: `generateSlug` is idempotent — applying it to its own output
changes nothing — and its output contains no whitespace character and no
two consecutive hyphens. -/
theorem generateSlug_idempotent (s : String) :
    generateSlug (generateSlug s) = generateSlug s ∧
    (∀ c ∈ (generateSlug s).data, isJsSpace c = false) ∧
    noTwoHyphens (generateSlug s).data = true := by
  obtain ⟨hg, hns, hnt⟩ := slugChars_output s.data
  refine ⟨?_, hns, hnt⟩
  show (⟨slugChars (slugChars s.data)⟩ : String) = ⟨slugChars s.data⟩
  rw [slugChars_fixed (slugChars s.data) hg hnt]

/-- C10: `formatContentFromApi` normalizes the public content shape: the
returned `tags` is always an array — the empty array when the API record
carries no tags (null/undefined), the same array otherwise — `featured`
is always a boolean (the truthiness of the raw value), and the optional
fields `image`, `category`, `position` and `company` become `undefined`
whenever the API value is null or the empty string. -/
theorem formatContentFromApi_normalizes (a : ApiContent)
    (htags : a.tags = .null ∨ a.tags = .undef ∨ ∃ xs, a.tags = .arr xs)
    (himg : a.image = .null ∨ a.image = .str "")
    (hcat : a.category = .null ∨ a.category = .str "")
    (hpos : a.position = .null ∨ a.position = .str "")
    (hcom : a.company = .null ∨ a.company = .str "") :
    (∃ ys, (formatContentFromApi a).tags = .arr ys ∧
        ((a.tags = .null ∨ a.tags = .undef) → ys = []) ∧
        (∀ xs, a.tags = .arr xs → ys = xs)) ∧
    (formatContentFromApi a).featured = .boolean a.featured.truthy ∧
    (formatContentFromApi a).image = .undef ∧
    (formatContentFromApi a).category = .undef ∧
    (formatContentFromApi a).position = .undef ∧
    (formatContentFromApi a).company = .undef := by
  refine ⟨?_, rfl, ?_, ?_, ?_, ?_⟩
  · rcases htags with h | h | ⟨xs, h⟩
    · refine ⟨[], ?_, ?_, ?_⟩
      · simp [formatContentFromApi, h, jsOr, JSVal.truthy]
      · intro _
        rfl
      · intro xs hxs
        rw [h] at hxs
        cases hxs
    · refine ⟨[], ?_, ?_, ?_⟩
      · simp [formatContentFromApi, h, jsOr, JSVal.truthy]
      · intro _
        rfl
      · intro xs hxs
        rw [h] at hxs
        cases hxs
    · refine ⟨xs, ?_, ?_, ?_⟩
      · simp [formatContentFromApi, h, jsOr, JSVal.truthy]
      · intro hc
        rcases hc with hc | hc <;> rw [h] at hc <;> cases hc
      · intro ys hys
        rw [h] at hys
        cases hys
        rfl
  · rcases himg with h | h <;> simp [formatContentFromApi, h, jsOr, JSVal.truthy]
  · rcases hcat with h | h <;> simp [formatContentFromApi, h, jsOr, JSVal.truthy]
  · rcases hpos with h | h <;> simp [formatContentFromApi, h, jsOr, JSVal.truthy]
  · rcases hcom with h | h <;> simp [formatContentFromApi, h, jsOr, JSVal.truthy]

theorem formatContentFromApi_normalizes_witness :
    (∃ ys, (formatContentFromApi apiSample).tags = .arr ys ∧
        ((apiSample.tags = .null ∨ apiSample.tags = .undef) → ys = []) ∧
        (∀ xs, apiSample.tags = .arr xs → ys = xs)) ∧
    (formatContentFromApi apiSample).featured
      = .boolean apiSample.featured.truthy ∧
    (formatContentFromApi apiSample).image = .undef ∧
    (formatContentFromApi apiSample).category = .undef ∧
    (formatContentFromApi apiSample).position = .undef ∧
    (formatContentFromApi apiSample).company = .undef :=
  formatContentFromApi_normalizes apiSample (.inl rfl) (.inl rfl)
    (.inr rfl) (.inl rfl) (.inr rfl)

end NewBolt
